import Mathlib

set_option linter.unusedVariables false
set_option autoImplicit false

/-! Verification of the SQLite-format reader in src/SQLite.js.

Shallow embedding conventions: byte buffers are lists of byte values,
JS Number values are Nat or Int, JS BigInt values are Nat, JS Map objects
are association lists kept in insertion order, JS strings decoded from
buffers are kept as their byte sequences, and every fallible operation
returns Except String. -/

/-- A decoded JS value as produced by the record codec: null, an integer
Number, a BigInt, a text string (kept as its UTF-8 byte sequence), a raw
Buffer blob, or the JS undefined value (absent Map entries). -/
inductive Value where
  | vnull
  | vint (n : Int)
  | vbig (n : Nat)
  | vtext (s : List Nat)
  | vblob (b : List Nat)
  | vundefined
deriving DecidableEq, Repr

/-- A row or any other JS Map keyed by strings, in insertion order. -/
abbrev Row := List (String × Value)

/-- Byte list of an ASCII string literal. -/
def ascii (s : String) : List Nat := s.data.map Char.toNat

/-- JS Map.prototype.set: replace the value at an existing key in place,
otherwise append the binding at the end. -/
def setKey {α : Type} : List (String × α) → String → α → List (String × α)
  | [], k, v => [(k, v)]
  | (k1, v1) :: rest, k, v =>
      if k1 = k then (k, v) :: rest else (k1, v1) :: setKey rest k v

/-- First binding for the key, if any. -/
def lookupKey {α : Type} : List (String × α) → String → Option α
  | [], _ => none
  | (k1, v1) :: rest, k => if k1 = k then some v1 else lookupKey rest k

/-- JS Map.prototype.get on rows: undefined when the key is absent. -/
def mapGet (m : Row) (k : String) : Value :=
  match lookupKey m k with
  | some v => v
  | none => .vundefined

/-- Big-endian value of the n bytes starting at off (absent bytes read 0;
callers bounds-check first). -/
def beVal (b : List Nat) (off : Nat) : Nat → Nat
  | 0 => 0
  | n + 1 => beVal b off n * 256 + b.getD (off + n) 0

/-- Node Buffer.readUIntBE: bounds-checked big-endian unsigned read. -/
def readUIntBE (b : List Nat) (off n : Nat) : Except String Nat :=
  if off + n ≤ b.length then .ok (beVal b off n)
  else .error "Attempt to access memory outside buffer bounds"

/-- Node Buffer.readUInt16BE. -/
def readUInt16BE (b : List Nat) (off : Nat) : Except String Nat := readUIntBE b off 2

/-- Node Buffer.readUInt32BE. -/
def readUInt32BE (b : List Nat) (off : Nat) : Except String Nat := readUIntBE b off 4

/-- Node Buffer.readBigUInt64BE (the numeric value; the JS result is a BigInt). -/
def readBigUInt64BE (b : List Nat) (off : Nat) : Except String Nat := readUIntBE b off 8

/-- Node Buffer.readInt8: bounds-checked signed byte read. -/
def readInt8 (b : List Nat) (off : Nat) : Except String Int :=
  if off + 1 ≤ b.length then
    .ok (if b.getD off 0 < 128 then (b.getD off 0 : Int) else (b.getD off 0 : Int) - 256)
  else .error "Attempt to access memory outside buffer bounds"

/-- fileHandle.read of len bytes at the given position into Buffer.alloc len:
the available file bytes followed by zero padding, always len bytes long. -/
def readPage (file : List Nat) (offset len : Nat) : List Nat :=
  (file.drop offset).take len ++
    List.replicate (len - ((file.drop offset).take len).length) 0

/-- Modelled from the spec: the variable-length integer decoder of
src/varint.js, which src/SQLite.js requires but which is absent from src/.
Spec section 4.1: up to 9 bytes; for the first 8 bytes the high bit marks
continuation and the low 7 bits are data, most significant byte first; if
all 8 have the continuation bit set, a 9th byte contributes its full
8 bits; fails only on buffer-bounds overrun. The first argument counts the
remaining 7-bit bytes. -/
def readVarIntAux (buffer : List Nat) : Nat → Nat → Nat → Nat → Except String (Nat × Nat)
  | 0, pos, acc, consumed =>
      match buffer.get? pos with
      | some b => .ok (acc * 256 + b, consumed + 1)
      | none => .error "truncated varint"
  | k + 1, pos, acc, consumed =>
      match buffer.get? pos with
      | some b =>
          if b < 128 then .ok (acc * 128 + b, consumed + 1)
          else readVarIntAux buffer k (pos + 1) (acc * 128 + (b - 128)) (consumed + 1)
      | none => .error "truncated varint"

/-- Modelled from the spec: decode(buffer, offset) returning
(value, bytesConsumed); see readVarIntAux. -/
def readVarInt (buffer : List Nat) (offset : Nat) : Except String (Nat × Nat) :=
  readVarIntAux buffer 8 offset 0 0

/-- src/SQLite.js getPageHeaderSize (lines 18-25). -/
def getPageHeaderSize (pageType : Int) : Except String Nat :=
  if pageType = 13 ∨ pageType = 10 then .ok 8
  else if pageType = 2 ∨ pageType = 5 then .ok 12
  else .error ("invalid page type: " ++ toString pageType)

/-- src/SQLite.js readValue (lines 51-69). Serial types 0, 8, 9, 12 and 13
decode to null; even types above 13 slice a blob and odd types above 13
slice a text of (serialType - 12) / 2 or (serialType - 13) / 2 bytes
(Buffer.subarray clamps at the buffer end); types 1 through 5 are fixed
width reads, signed only for type 1; types 6 and 7 read 8 bytes as an
unsigned BigInt. -/
def readValue (buffer : List Nat) (cursor : Nat) (serialType : Nat) :
    Except String (Value × Nat) :=
  if serialType = 0 ∨ serialType = 8 ∨ serialType = 9 ∨ serialType = 12 ∨ serialType = 13 then
    .ok (.vnull, cursor)
  else if 12 < serialType then
    let dataTypeSize := (serialType - (if serialType % 2 = 0 then 12 else 13)) / 2
    let value := (buffer.drop cursor).take dataTypeSize
    let newCursor := cursor + dataTypeSize
    if serialType % 2 = 0 then .ok (.vblob value, newCursor)
    else .ok (.vtext value, newCursor)
  else if serialType = 1 then
    (readInt8 buffer cursor).map (fun v => (.vint v, cursor + 1))
  else if serialType = 2 then
    (readUInt16BE buffer cursor).map (fun (v : Nat) => (.vint (v : Int), cursor + 2))
  else if serialType = 3 then
    (readUIntBE buffer cursor 3).map (fun (v : Nat) => (.vint (v : Int), cursor + 3))
  else if serialType = 4 then
    (readUInt32BE buffer cursor).map (fun (v : Nat) => (.vint (v : Int), cursor + 4))
  else if serialType = 5 then
    (readUIntBE buffer cursor 6).map (fun (v : Nat) => (.vint (v : Int), cursor + 6))
  else if serialType = 6 ∨ serialType = 7 then
    (readBigUInt64BE buffer cursor).map (fun v => (.vbig v, cursor + 8))
  else .error ("Unknown serial type: " ++ toString serialType)

/-- First loop of parseRecord: one serial-type varint per column name,
collected into a Map. -/
def recordSerialTypes (buffer : List Nat) :
    List String → Nat → List (String × Nat) → Except String (List (String × Nat) × Nat)
  | [], cursor, m => .ok (m, cursor)
  | column :: rest, cursor, m => do
      let (value, bytesRead) ← readVarInt buffer cursor
      recordSerialTypes buffer rest (cursor + bytesRead) (setKey m column value)

/-- Second loop of parseRecord: decode one value per column, advancing the
cursor. A column absent from the serial-type map would pass JS undefined to
readValue, which throws the unknown-serial-type error. -/
def recordValues (buffer : List Nat) (serialTypes : List (String × Nat)) :
    List String → Nat → Row → Except String Row
  | [], _, record => .ok record
  | column :: rest, cursor, record =>
      match lookupKey serialTypes column with
      | none => .error "Unknown serial type: undefined"
      | some st => do
          let (value, newCursor) ← readValue buffer cursor st
          recordValues buffer serialTypes rest newCursor (setKey record column value)

/-- src/SQLite.js parseRecord (lines 77-94): header-length varint, then one
serial-type varint per column, then the column payloads in order. -/
def parseRecord (buffer : List Nat) (columns : List String) : Except String Row := do
  let (_, bytesRead) ← readVarInt buffer 0
  let (serialTypes, cursor) ← recordSerialTypes buffer columns bytesRead []
  recordValues buffer serialTypes columns cursor []

/-- src/SQLite.js readCell (lines 113-136): record-size varint, then (on
table pages, types 13 and 5) the rowid varint, then the record payload
slice of recordSize bytes. -/
def readCell (pageType : Int) (buffer : List Nat) (cellPointer : Nat) :
    Except String (List Nat × Option Nat) := do
  let sizeRead ← readVarInt buffer cellPointer
  let recordSize := sizeRead.1
  let cursor := cellPointer + sizeRead.2
  let rowIdCursor ←
    if pageType = 13 ∨ pageType = 5 then do
      let rowIdRead ← readVarInt buffer cursor
      pure ((some rowIdRead.1 : Option Nat), cursor + rowIdRead.2)
    else pure ((none : Option Nat), cursor)
  let record := (buffer.drop rowIdCursor.2).take recordSize
  .ok (record, rowIdCursor.1)

/-- The rowId passed to row.set: a Number when present, JS undefined when
the page type carried no rowid. -/
def rowIdValue : Option Nat → Value
  | some r => .vint r
  | none => .vundefined

/-- row.set(identityColumn, rowId) guarded by JS truthiness of the
identityColumn string: undefined and the empty string are falsy, so no
override happens for them. -/
def applyIdentity (row : Row) : Option String → Option Nat → Row
  | some ic, rowId => if ic = "" then row else setKey row ic (rowIdValue rowId)
  | none, _ => row

/-- Loop body of parseTableLeafPage: numberOfCells cells, reading a 2-byte
cell pointer at the cursor, decoding the cell and record, applying the
identity-column override, and advancing the cursor by 2. -/
def leafCells (buffer : List Nat) (columns : List String) (identityColumn : Option String)
    (pageType : Int) : Nat → Nat → Except String (List Row)
  | 0, _ => .ok []
  | n + 1, cursor => do
      let cellPointer ← readUInt16BE buffer cursor
      let cell ← readCell pageType buffer cellPointer
      let row ← parseRecord cell.1 columns
      let rest ← leafCells buffer columns identityColumn pageType n (cursor + 2)
      .ok (applyIdentity row identityColumn cell.2 :: rest)

/-- src/SQLite.js parseTableLeafPage (lines 166-180). -/
def parseTableLeafPage (pageType : Int) (numberOfCells : Nat) (buffer : List Nat)
    (columns : List String) (identityColumn : Option String) : Except String (List Row) := do
  let headerSize ← getPageHeaderSize pageType
  leafCells buffer columns identityColumn pageType numberOfCells headerSize

/-- Loop body of parseTableInteriorPage: numberOfCells cells, each a 2-byte
cell pointer whose target holds a 4-byte big-endian child page number. -/
def interiorCells (buffer : List Nat) : Nat → Nat → Except String (List Nat)
  | 0, _ => .ok []
  | n + 1, cursor => do
      let cellPointer ← readUInt16BE buffer cursor
      let childPointer ← readUInt32BE buffer cellPointer
      let rest ← interiorCells buffer n (cursor + 2)
      .ok (childPointer :: rest)

/-- src/SQLite.js parseTableInteriorPage (lines 185-196). -/
def parseTableInteriorPage (pageType : Int) (numberOfCells : Nat) (buffer : List Nat) :
    Except String (List Nat) := do
  let headerSize ← getPageHeaderSize pageType
  interiorCells buffer numberOfCells headerSize

/-- src/SQLite.js readTableRows (lines 207-240), with explicit recursion
fuel standing for the JS call stack. The page buffer is the pageSize bytes
at offset (page - 1) * pageSize; the right-most pointer at bytes 8-11 of an
interior page header is read into a local but never recursed into; leaf
pages (13) decode their cells into rows; interior pages (5) recurse into
the child page numbers from their cells, concatenating in cell order; any
other page type throws. -/
def readTableRows (file : List Nat) (pageSize : Nat) (columns : List String)
    (identityColumn : Option String) : Nat → Nat → Except String (List Row)
  | 0, _ => .error "Maximum call stack size exceeded"
  | fuel + 1, page => do
      let buffer := readPage file ((page - 1) * pageSize) pageSize
      let pageType ← readInt8 buffer 0
      let _startOfFreeBlock ← readUInt16BE buffer 1
      let numberOfCells ← readUInt16BE buffer 3
      let _startOfCellContentArea ← readUInt16BE buffer 5
      let _rightMostPointer ←
        if pageType = 2 ∨ pageType = 5 then (readUInt32BE buffer 8).map some
        else pure (none : Option Nat)
      if pageType = 13 then
        parseTableLeafPage pageType numberOfCells buffer columns identityColumn
      else if pageType = 5 then do
        let childPointers ← parseTableInteriorPage pageType numberOfCells buffer
        childPointers.foldlM
          (fun rows childPointer => do
            let childRows ← readTableRows file pageSize columns identityColumn fuel childPointer
            Except.ok (rows ++ childRows))
          []
      else .error ("Unknown page type: " ++ toString pageType)

/-- Child-by-child scan of a pointer list: the recursion of spec section
4.6 restricted to exactly the given children. Used to state that an
interior-page scan visits exactly the cell children and nothing else. -/
def scanChildren (file : List Nat) (pageSize : Nat) (columns : List String)
    (identityColumn : Option String) (fuel : Nat) : List Nat → Except String (List Row)
  | [] => .ok []
  | childPointer :: rest => do
      let childRows ← readTableRows file pageSize columns identityColumn fuel childPointer
      let more ← scanChildren file pageSize columns identityColumn fuel rest
      .ok (childRows ++ more)

/-- The rowid of the leaf cell whose 2-byte cell pointer sits at the given
cursor: the reads performed by one parseTableLeafPage iteration, keeping
only the rowid. -/
def leafCellRowId (buffer : List Nat) (cursor : Nat) : Except String (Option Nat) := do
  let cellPointer ← readUInt16BE buffer cursor
  let cell ← readCell 13 buffer cellPointer
  .ok cell.2

/-- JS strict equality on decoded values: true only within the same type
with equal content, except that Buffer blobs compare by object reference,
and a blob decoded from the file is never the same object as a query
literal, so blob comparisons are always false. -/
def jsStrictEq : Value → Value → Bool
  | .vnull, .vnull => true
  | .vundefined, .vundefined => true
  | .vint a, .vint b => a == b
  | .vbig a, .vbig b => a == b
  | .vtext a, .vtext b => a == b
  | _, _ => false

/-- src/SQLite.js applyFilter (lines 144-152): an empty where clause keeps
the rows as they are; otherwise only the first (column, literal) pair is
consulted, keeping rows whose value at that column is strictly equal. -/
def applyFilter (rows : List Row) (whereClause : List (String × Value)) : List Row :=
  match whereClause with
  | [] => rows
  | (filterColumn, filterValue) :: _ =>
      rows.filter (fun row => jsStrictEq (mapGet row filterColumn) filterValue)

/-- String(v) as used by the default Array.prototype.sort comparator
(restricted to the value shapes the engine produces; text is its byte
sequence). -/
def jsSortKey : Value → List Nat
  | .vnull => ascii "null"
  | .vundefined => ascii "undefined"
  | .vint n => ascii (toString n)
  | .vbig n => ascii (toString n)
  | .vtext s => s
  | .vblob b => b

/-- String conversion applied by Array.prototype.join: null and undefined
become the empty string, other values stringify as for sorting. -/
def jsJoinPiece : Value → List Nat
  | .vnull => []
  | .vundefined => []
  | .vint n => ascii (toString n)
  | .vbig n => ascii (toString n)
  | .vtext s => s
  | .vblob b => b

/-- Lexicographic order on byte sequences, the order the default JS sort
comparator induces on ASCII strings. -/
def bytesLe : List Nat → List Nat → Bool
  | [], _ => true
  | _ :: _, [] => false
  | a :: as, b :: bs => if a < b then true else if b < a then false else bytesLe as bs

/-- The sort order used on table-name values. -/
def jsSortLe (a b : Value) : Bool := bytesLe (jsSortKey a) (jsSortKey b)

/-- Stable insertion into a sorted list: the new element goes after every
element that compares less-or-equal, as a stable JS sort would place it. -/
def insertS {α : Type} (le : α → α → Bool) (x : α) : List α → List α
  | [] => [x]
  | y :: ys => if le y x then y :: insertS le x ys else x :: y :: ys

/-- Stable sort by repeated insertion (JS Array.prototype.sort is required
to be stable and sorted; for a total preorder that determines it). -/
def sortListBy {α : Type} (le : α → α → Bool) (l : List α) : List α :=
  l.foldl (fun acc x => insertS le x acc) []

/-- Array.prototype.join with a separator. -/
def joinWith (sep : List Nat) : List (List Nat) → List Nat
  | [] => []
  | [x] => x
  | x :: xs => x ++ sep ++ joinWith sep xs

/-- src/SQLite.js filterAndFormatListOfTables (lines 270-276): map each
catalog entry to its tableName value, drop those strictly equal to the
string sqlite_sequence, sort with the default comparator, join with single
spaces. -/
def filterAndFormatListOfTables (tables : List Row) : List Nat :=
  joinWith (ascii " ")
    ((sortListBy jsSortLe
        ((tables.map (fun table => mapGet table "tableName")).filter
          (fun tableName => !(jsStrictEq tableName (Value.vtext (ascii "sqlite_sequence")))))).map
      jsJoinPiece)

/-- Text payload of a value, when it is text. -/
def textOf : Value → Option (List Nat)
  | .vtext s => some s
  | _ => none

/-- The table names the spec says .tables keeps: the text tableName values
other than sqlite_sequence, in catalog order. -/
def keptNames (tables : List Row) : List (List Nat) :=
  ((tables.map (fun t => mapGet t "tableName")).filterMap textOf).filter
    (fun s => !(s == ascii "sqlite_sequence"))

/-- The kept table names in sorted order. -/
def sortedKept (tables : List Row) : List (List Nat) :=
  sortListBy bytesLe (keptNames tables)

/-- src/SQLite.js main (lines 315-346): the single try/catch invocation
boundary. A successful command body yields its result; a thrown error is
caught, written to the error stream with the Fatal error prefix, and
execution falls through (main neither rethrows nor calls process.exit),
so the process exit status is 0 in both cases. The result is
(command result if any, error-stream lines, exit status). -/
def mainModel {α : Type} (body : Except String α) :
    Option α × List (List Nat) × Nat :=
  match body with
  | .ok out => (some out, [], 0)
  | .error e => (none, [ascii "Fatal error: " ++ ascii e], 0)

/-! Concrete database files used as witnesses and counterexamples.
All use pageSize 32. A leaf cell holds recordSize 2, a 1-byte rowid, and
the record [2, 0]: header length 2, one column of serial type 0 (null),
so the single column "a" decodes to null and is overridden by the rowid
when "a" is the identity column. -/

/-- A 32-byte leaf table page with one cell at offset 16 holding the given
rowid and a one-column null record. -/
def leafPageBuf (rid : Nat) : List Nat :=
  [13, 0, 0, 0, 1, 0, 0, 0, 0, 16] ++ List.replicate 6 0 ++
    [2, rid, 2, 0] ++ List.replicate 12 0

/-- The leaf page with rowid 1, used on its own for leaf-page theorems. -/
def leafBuf : List Nat := leafPageBuf 1

/-- A 32-byte interior table page laid out as SQLite lays out a root with
two leaf children: one cell (child page 2) plus the right-most pointer in
header bytes 8-11 pointing at page 3. -/
def interiorPageRM : List Nat :=
  [5, 0, 0, 0, 1, 0, 0, 0] ++ [0, 0, 0, 3] ++ [0, 20] ++ List.replicate 6 0 ++
    [0, 0, 0, 2] ++ List.replicate 8 0

/-- Three-page database: interior root (one cell child, page 2; right-most
child page 3), leaf page 2 with rowid 1, leaf page 3 with rowid 2. -/
def fileRM : List Nat := interiorPageRM ++ leafPageBuf 1 ++ leafPageBuf 2

/-- A 32-byte interior table page with three cell children: pages 2, 3, 4. -/
def interiorPage3 : List Nat :=
  [5, 0, 0, 0, 3, 0, 0, 0, 0, 0, 0, 0, 0, 20, 0, 24, 0, 28, 0, 0,
   0, 0, 0, 2, 0, 0, 0, 3, 0, 0, 0, 4]

/-- Four-page database: interior root with cell children 2, 3, 4; leaves
with rowids 1, 2, 3. -/
def file9 : List Nat := interiorPage3 ++ leafPageBuf 1 ++ leafPageBuf 2 ++ leafPageBuf 3

/-- A one-page file whose page-type byte is 7: no branch of readTableRows
accepts it. -/
def badPageFile : List Nat := 7 :: List.replicate 31 0

/-- A catalog holding a user table and the internal statistics table
sqlite_stat1 (internal in the SQLite sense: its name starts with the
sqlite_ prefix). -/
def stat1Catalog : List Row :=
  [[("tableName", Value.vtext (ascii "apples"))],
   [("tableName", Value.vtext (ascii "sqlite_stat1"))]]

/-- A catalog with two user tables and the sqlite_sequence bookkeeping
table, in unsorted order. -/
def demoCatalog : List Row :=
  [[("tableName", Value.vtext (ascii "banana"))],
   [("tableName", Value.vtext (ascii "apple"))],
   [("tableName", Value.vtext (ascii "sqlite_sequence"))]]

/-! Helper lemmas. -/

@[simp] theorem exbind_ok {α β : Type} (a : α) (f : α → Except String β) :
    (Except.ok a >>= f) = f a := rfl

@[simp] theorem exbind_error {α β : Type} (e : String) (f : α → Except String β) :
    ((Except.error e : Except String α) >>= f) = .error e := rfl

@[simp] theorem expure_eq_ok {α : Type} (a : α) : (pure a : Except String α) = .ok a := rfl

@[simp] theorem exmap_ok {α β : Type} (a : α) (f : α → β) :
    (Except.ok a : Except String α).map f = .ok (f a) := rfl

@[simp] theorem exmap_error {α β : Type} (e : String) (f : α → β) :
    (Except.error e : Except String α).map f = .error e := rfl

theorem readPage_length (file : List Nat) (offset len : Nat) :
    (readPage file offset len).length = len := by
  simp only [readPage, List.length_append, List.length_replicate, List.length_take,
    List.length_drop]
  omega

theorem readUIntBE_ok_of_le {b : List Nat} {off n : Nat} (h : off + n ≤ b.length) :
    readUIntBE b off n = .ok (beVal b off n) := by
  simp [readUIntBE, h]

/-- The interior-page fold over child pointers, expressed child by child. -/
theorem foldlM_scanChildren (file : List Nat) (pageSize : Nat) (columns : List String)
    (identityColumn : Option String) (fuel : Nat) :
    ∀ (cs : List Nat) (acc : List Row),
      cs.foldlM
        (fun rows childPointer => do
          let childRows ← readTableRows file pageSize columns identityColumn fuel childPointer
          Except.ok (rows ++ childRows)) acc =
      (scanChildren file pageSize columns identityColumn fuel cs).map
        (fun more => acc ++ more) := by
  intro cs
  induction cs with
  | nil => intro acc; simp [scanChildren, Except.map]
  | cons c rest ih =>
      intro acc
      rw [List.foldlM_cons, scanChildren]
      cases hr : readTableRows file pageSize columns identityColumn fuel c with
      | error e => simp [hr, Except.map]
      | ok rs =>
          simp only [hr, exbind_ok]
          rw [ih]
          cases hs2 : scanChildren file pageSize columns identityColumn fuel rest with
          | error e => simp [Except.map]
          | ok more => simp [Except.map, List.append_assoc]

/-- Scanning a page whose type byte is the interior table type visits
exactly the child page numbers decoded from the cell pointer array, in
cell order; the right-most pointer in header bytes 8-11 plays no part. -/
theorem readTableRows_interior (file : List Nat) (pageSize : Nat) (columns : List String)
    (identityColumn : Option String) (fuel page n : Nat) (cs : List Nat)
    (hps : 12 ≤ pageSize)
    (hpt : readInt8 (readPage file ((page - 1) * pageSize) pageSize) 0 = .ok 5)
    (hn : readUInt16BE (readPage file ((page - 1) * pageSize) pageSize) 3 = .ok n)
    (hch : parseTableInteriorPage 5 n (readPage file ((page - 1) * pageSize) pageSize) = .ok cs) :
    readTableRows file pageSize columns identityColumn (fuel + 1) page =
      scanChildren file pageSize columns identityColumn fuel cs := by
  have hlen := readPage_length file ((page - 1) * pageSize) pageSize
  rw [readTableRows]
  rw [hpt, exbind_ok]
  rw [readUInt16BE, readUIntBE_ok_of_le (by omega), exbind_ok]
  rw [hn, exbind_ok]
  rw [readUInt16BE, readUIntBE_ok_of_le (by omega), exbind_ok]
  rw [if_pos (by decide : (5 : Int) = 2 ∨ (5 : Int) = 5)]
  rw [readUInt32BE, readUIntBE_ok_of_le (by omega), exmap_ok, exbind_ok]
  rw [if_neg (by decide : ¬ (5 : Int) = 13), if_pos (rfl : (5 : Int) = 5)]
  rw [hch, exbind_ok]
  rw [foldlM_scanChildren]
  cases hs : scanChildren file pageSize columns identityColumn fuel cs with
  | error e => simp [Except.map]
  | ok more => simp [Except.map]

theorem mapGet_setKey (m : Row) (k : String) (v : Value) :
    mapGet (setKey m k v) k = v := by
  induction m with
  | nil => simp [setKey, mapGet, lookupKey]
  | cons p rest ih =>
      obtain ⟨k1, v1⟩ := p
      by_cases h : k1 = k
      · simp [setKey, h, mapGet, lookupKey]
      · simp only [setKey, if_neg h, mapGet, lookupKey]
        exact ih

/-- On a table page type, a successful readCell always yields a rowid. -/
theorem readCell_table_some (buffer : List Nat) (cellPointer : Nat) (record : List Nat)
    (rowId : Option Nat) (h : readCell 13 buffer cellPointer = .ok (record, rowId)) :
    ∃ r, rowId = some r := by
  rw [readCell] at h
  cases hv : readVarInt buffer cellPointer with
  | error e => rw [hv] at h; simp at h
  | ok p =>
      rw [hv] at h
      simp only [exbind_ok, eq_self_iff_true, true_or, if_true] at h
      cases hv2 : readVarInt buffer (cellPointer + p.2) with
      | error e => rw [hv2] at h; simp at h
      | ok q =>
          rw [hv2] at h
          simp only [exbind_ok, expure_eq_ok, Except.ok.injEq, Prod.mk.injEq] at h
          exact ⟨q.1, h.2.symm⟩

/-- Each row produced by the leaf-cell loop with a truthy identity column
carries, at that column, exactly the rowid of its own cell. -/
theorem leafCells_identity (buffer : List Nat) (columns : List String) (ic : String)
    (hic : ic ≠ "") :
    ∀ (n cursor : Nat) (rows : List Row),
      leafCells buffer columns (some ic) 13 n cursor = .ok rows →
      ∀ i (hi : i < rows.length), ∃ r : Nat,
        leafCellRowId buffer (cursor + 2 * i) = .ok (some r) ∧
        mapGet (rows.get ⟨i, hi⟩) ic = Value.vint r := by
  intro n
  induction n with
  | zero =>
      intro cursor rows h i hi
      rw [leafCells] at h
      simp only [Except.ok.injEq] at h
      subst h
      simp at hi
  | succ n ih =>
      intro cursor rows h i hi
      rw [leafCells] at h
      cases hcp : readUInt16BE buffer cursor with
      | error e => rw [hcp] at h; simp at h
      | ok cellPtr =>
          rw [hcp] at h
          simp only [exbind_ok] at h
          cases hcell : readCell 13 buffer cellPtr with
          | error e => rw [hcell] at h; simp at h
          | ok cell =>
              rw [hcell] at h
              simp only [exbind_ok] at h
              cases hrec : parseRecord cell.1 columns with
              | error e => rw [hrec] at h; simp at h
              | ok row =>
                  rw [hrec] at h
                  simp only [exbind_ok] at h
                  cases hrest : leafCells buffer columns (some ic) 13 n (cursor + 2) with
                  | error e => rw [hrest] at h; simp at h
                  | ok restRows =>
                      rw [hrest] at h
                      simp only [exbind_ok, Except.ok.injEq] at h
                      obtain ⟨r, hr⟩ :=
                        readCell_table_some buffer cellPtr cell.1 cell.2 (by rw [hcell])
                      cases i with
                      | zero =>
                          refine ⟨r, ?_, ?_⟩
                          · rw [leafCellRowId]
                            rw [Nat.mul_zero, Nat.add_zero, hcp, exbind_ok, hcell, exbind_ok, hr]
                          · subst h
                            simp only [List.get]
                            rw [hr, applyIdentity, if_neg hic, rowIdValue, mapGet_setKey]
                      | succ i =>
                          subst h
                          have hi2 : i < restRows.length := by
                            simpa using Nat.lt_of_succ_lt_succ hi
                          obtain ⟨r2, hr2, hg2⟩ := ih (cursor + 2) restRows hrest i hi2
                          refine ⟨r2, ?_, ?_⟩
                          · have heq : cursor + 2 * (i + 1) = cursor + 2 + 2 * i := by omega
                            rw [heq]
                            exact hr2
                          · simpa [List.get] using hg2

/-! Order lemmas for the byte-sequence sort. -/

theorem bytesLe_nil (b : List Nat) : bytesLe [] b = true := rfl

theorem bytesLe_total : ∀ a b : List Nat, bytesLe a b = true ∨ bytesLe b a = true := by
  intro a
  induction a with
  | nil => intro b; left; rfl
  | cons x xs ih =>
      intro b
      cases b with
      | nil => right; rfl
      | cons y ys =>
          by_cases h1 : x < y
          · left; simp [bytesLe, h1]
          · by_cases h2 : y < x
            · right; simp [bytesLe, h2]
            · have hxy : ¬ y < x := h2
              rcases ih ys with hc | hc
              · left; simp [bytesLe, h1, h2, hc]
              · right
                simp [bytesLe, h1, h2, hc, show ¬ y < x from h2, show ¬ x < y from h1]

theorem bytesLe_trans :
    ∀ a b c : List Nat, bytesLe a b = true → bytesLe b c = true → bytesLe a c = true := by
  intro a
  induction a with
  | nil => intro b c _ _; rfl
  | cons x xs ih =>
      intro b c hab hbc
      cases b with
      | nil => simp [bytesLe] at hab
      | cons y ys =>
          cases c with
          | nil => simp [bytesLe] at hbc
          | cons z zs =>
              simp only [bytesLe] at hab hbc ⊢
              split_ifs at hab hbc ⊢ <;>
                first
                  | rfl
                  | omega
                  | exact ih ys zs hab hbc

/-! Stable insertion sort lemmas. -/

theorem mem_insertS {α : Type} (le : α → α → Bool) (x y : α) :
    ∀ l : List α, y ∈ insertS le x l ↔ y = x ∨ y ∈ l := by
  intro l
  induction l with
  | nil => simp [insertS]
  | cons z zs ih =>
      by_cases h : le z x = true
      · rw [insertS, if_pos h]
        simp only [List.mem_cons, ih]
        tauto
      · rw [insertS, if_neg h]
        simp only [List.mem_cons]

theorem insertS_perm {α : Type} (le : α → α → Bool) (x : α) :
    ∀ l : List α, (insertS le x l).Perm (x :: l) := by
  intro l
  induction l with
  | nil => exact List.Perm.refl _
  | cons z zs ih =>
      by_cases h : le z x = true
      · rw [insertS, if_pos h]
        exact (ih.cons z).trans (List.Perm.swap x z zs)
      · rw [insertS, if_neg h]

theorem sortListBy_perm_aux {α : Type} (le : α → α → Bool) :
    ∀ (l acc : List α), (l.foldl (fun a x => insertS le x a) acc).Perm (l ++ acc) := by
  intro l
  induction l with
  | nil => intro acc; simp
  | cons x xs ih =>
      intro acc
      rw [List.foldl_cons]
      have h2 : (xs ++ insertS le x acc).Perm (xs ++ x :: acc) :=
        List.Perm.append_left xs (insertS_perm le x acc)
      have h3 : (xs ++ x :: acc).Perm (x :: (xs ++ acc)) := List.perm_middle
      exact (ih (insertS le x acc)).trans (h2.trans h3)

theorem sortListBy_perm {α : Type} (le : α → α → Bool) (l : List α) :
    (sortListBy le l).Perm l := by
  have h := sortListBy_perm_aux le l []
  simpa [sortListBy] using h

theorem insertS_pairwise {α : Type} (le : α → α → Bool)
    (htotal : ∀ a b, le a b = true ∨ le b a = true)
    (htrans : ∀ a b c, le a b = true → le b c = true → le a c = true) (x : α) :
    ∀ l : List α, l.Pairwise (fun a b => le a b = true) →
      (insertS le x l).Pairwise (fun a b => le a b = true) := by
  intro l
  induction l with
  | nil => intro _; simp [insertS]
  | cons z zs ih =>
      intro hp
      rw [List.pairwise_cons] at hp
      obtain ⟨hz, hzs⟩ := hp
      by_cases h : le z x = true
      · rw [insertS, if_pos h, List.pairwise_cons]
        refine ⟨?_, ih hzs⟩
        intro y hy
        rcases (mem_insertS le x y zs).mp hy with rfl | hy
        · exact h
        · exact hz y hy
      · rw [insertS, if_neg h, List.pairwise_cons]
        have hxz : le x z = true := by
          rcases htotal z x with hc | hc
          · exact absurd hc h
          · exact hc
        refine ⟨?_, List.pairwise_cons.mpr ⟨hz, hzs⟩⟩
        intro y hy
        rcases List.mem_cons.mp hy with rfl | hy
        · exact hxz
        · exact htrans x z y hxz (hz y hy)

theorem sortListBy_pairwise_aux {α : Type} (le : α → α → Bool)
    (htotal : ∀ a b, le a b = true ∨ le b a = true)
    (htrans : ∀ a b c, le a b = true → le b c = true → le a c = true) :
    ∀ (l acc : List α), acc.Pairwise (fun a b => le a b = true) →
      (l.foldl (fun a x => insertS le x a) acc).Pairwise (fun a b => le a b = true) := by
  intro l
  induction l with
  | nil => intro acc h; simpa using h
  | cons x xs ih =>
      intro acc h
      rw [List.foldl_cons]
      exact ih (insertS le x acc) (insertS_pairwise le htotal htrans x acc h)

theorem sortListBy_pairwise {α : Type} (le : α → α → Bool)
    (htotal : ∀ a b, le a b = true ∨ le b a = true)
    (htrans : ∀ a b c, le a b = true → le b c = true → le a c = true) (l : List α) :
    (sortListBy le l).Pairwise (fun a b => le a b = true) :=
  sortListBy_pairwise_aux le htotal htrans l [] List.Pairwise.nil

/-! The .tables pipeline on all-text catalogs. -/

theorem filter_map_text (vs : List Value) (h : ∀ v ∈ vs, ∃ s, v = Value.vtext s) :
    (vs.filter
        (fun tableName => !(jsStrictEq tableName (Value.vtext (ascii "sqlite_sequence"))))).map
      jsJoinPiece =
    (vs.filterMap textOf).filter (fun s => !(s == ascii "sqlite_sequence")) := by
  induction vs with
  | nil => rfl
  | cons v rest ih =>
      obtain ⟨s, rfl⟩ := h v (List.mem_cons_self v rest)
      have ihr := ih (fun w hw => h w (List.mem_cons_of_mem _ hw))
      have hbridge :
          jsStrictEq (Value.vtext s) (Value.vtext (ascii "sqlite_sequence")) =
            (s == ascii "sqlite_sequence") := rfl
      have hjoin : jsJoinPiece (Value.vtext s) = s := rfl
      have htext : textOf (Value.vtext s) = some s := rfl
      by_cases hs : (s == ascii "sqlite_sequence") = true
      · simp [List.filter_cons, List.filterMap_cons, htext, hbridge, hs, ihr]
      · simp [List.filter_cons, List.filterMap_cons, htext, hbridge, hs, ihr, hjoin]

theorem insertS_map_text :
    ∀ (l : List Value) (x : Value), (∀ y ∈ l, ∃ s, y = Value.vtext s) →
      (∃ s, x = Value.vtext s) →
      (insertS jsSortLe x l).map jsJoinPiece =
        insertS bytesLe (jsJoinPiece x) (l.map jsJoinPiece) := by
  intro l
  induction l with
  | nil => intro x _ _; rfl
  | cons y ys ih =>
      intro x hl hx
      obtain ⟨sx, rfl⟩ := hx
      obtain ⟨sy, rfl⟩ := hl y (List.mem_cons_self y ys)
      have hih := ih (Value.vtext sx) (fun w hw => hl w (List.mem_cons_of_mem _ hw)) ⟨sx, rfl⟩
      have hkey : jsSortLe (Value.vtext sy) (Value.vtext sx) = bytesLe sy sx := rfl
      have hjx : jsJoinPiece (Value.vtext sx) = sx := rfl
      have hjy : jsJoinPiece (Value.vtext sy) = sy := rfl
      by_cases hc : bytesLe sy sx = true
      · simp [insertS, hkey, hjx, hjy, hc, hih]
      · simp [insertS, hkey, hjx, hjy, hc, hih]

theorem mem_sort_acc_text :
    ∀ (vs acc : List Value), (∀ v ∈ vs, ∃ s, v = Value.vtext s) →
      (∀ v ∈ acc, ∃ s, v = Value.vtext s) →
      ∀ w ∈ vs.foldl (fun a x => insertS jsSortLe x a) acc, ∃ s, w = Value.vtext s := by
  intro vs
  induction vs with
  | nil => intro acc _ hacc w hw; exact hacc w hw
  | cons v rest ih =>
      intro acc hvs hacc w hw
      rw [List.foldl_cons] at hw
      refine ih (insertS jsSortLe v acc) (fun u hu => hvs u (List.mem_cons_of_mem v hu))
        ?_ w hw
      intro u hu
      rcases (mem_insertS jsSortLe v u acc).mp hu with rfl | hu
      · exact hvs _ (List.mem_cons_self _ _)
      · exact hacc u hu

theorem sort_map_text :
    ∀ (vs acc : List Value), (∀ v ∈ vs, ∃ s, v = Value.vtext s) →
      (∀ v ∈ acc, ∃ s, v = Value.vtext s) →
      (vs.foldl (fun a x => insertS jsSortLe x a) acc).map jsJoinPiece =
        (vs.map jsJoinPiece).foldl (fun a s => insertS bytesLe s a) (acc.map jsJoinPiece) := by
  intro vs
  induction vs with
  | nil => intro acc _ _; rfl
  | cons v rest ih =>
      intro acc hvs hacc
      rw [List.foldl_cons, List.map_cons, List.foldl_cons]
      rw [← insertS_map_text acc v hacc (hvs v (List.mem_cons_self v rest))]
      refine ih (insertS jsSortLe v acc) (fun u hu => hvs u (List.mem_cons_of_mem v hu)) ?_
      intro u hu
      rcases (mem_insertS jsSortLe v u acc).mp hu with rfl | hu
      · exact hvs _ (List.mem_cons_self _ _)
      · exact hacc u hu

/-! Claim theorems. -/

/-- C1: the claim says a full scan of a table whose B-tree is one interior
root with two leaf children returns all stored rows in ascending rowid
order. On the standard layout (one cell child plus the right-most pointer
in header bytes 8-11) the code silently drops every row under the
right-most child: in fileRM the root scan returns only the rowid-1 row of
leaf page 2, while leaf page 3 (the right-most child) holds the rowid-2
row, so the scan returns 1 row although the table stores 2. -/
theorem c1_missing_rightmost_rows :
    readTableRows fileRM 32 ["a"] (some "a") 2 1 = Except.ok [[("a", Value.vint 1)]] ∧
    readTableRows fileRM 32 ["a"] (some "a") 1 3 = Except.ok [[("a", Value.vint 2)]] ∧
    ([[("a", Value.vint 1)]] : List Row).length = 1 :=
  ⟨rfl, rfl, rfl⟩

/-- C2: an interior table page scan recurses only into the child page
numbers decoded from the cell pointer array, in cell order (first
conjunct, for every file); concretely, in fileRM the right-most pointer
names leaf page 3, whose rowid-2 row is never part of the root scan
result even though scanning page 3 directly yields it. -/
theorem c2_scan_only_cell_children :
    (∀ (file : List Nat) (pageSize : Nat) (columns : List String)
        (identityColumn : Option String) (fuel page n : Nat) (cs : List Nat),
        12 ≤ pageSize →
        readInt8 (readPage file ((page - 1) * pageSize) pageSize) 0 = .ok 5 →
        readUInt16BE (readPage file ((page - 1) * pageSize) pageSize) 3 = .ok n →
        parseTableInteriorPage 5 n (readPage file ((page - 1) * pageSize) pageSize) = .ok cs →
        readTableRows file pageSize columns identityColumn (fuel + 1) page =
          scanChildren file pageSize columns identityColumn fuel cs) ∧
    readTableRows fileRM 32 ["a"] (some "a") 2 1 = Except.ok [[("a", Value.vint 1)]] ∧
    readTableRows fileRM 32 ["a"] (some "a") 1 3 = Except.ok [[("a", Value.vint 2)]] ∧
    ¬ [("a", Value.vint 2)] ∈ [[("a", Value.vint 1)]] := by
  refine ⟨?_, rfl, rfl, by decide⟩
  intro file pageSize columns identityColumn fuel page n cs hps hpt hn hch
  exact readTableRows_interior file pageSize columns identityColumn fuel page n cs hps hpt hn hch

/-- Witness for C2: scanning the interior root of fileRM equals the
child-by-child scan of its single cell child, page 2. -/
theorem c2_scan_only_cell_children_witness :
    readTableRows fileRM 32 ["a"] (some "a") (1 + 1) 1 =
      scanChildren fileRM 32 ["a"] (some "a") 1 [2] :=
  c2_scan_only_cell_children.1 fileRM 32 ["a"] (some "a") 1 1 1 [2] (by omega) rfl rfl rfl

/-- C3 counterexample: the claim says serial type 12 decodes to a
zero-length blob and 13 to a zero-length text; the code returns the null
value for both. -/
theorem c3_counterexample :
    readValue [] 0 12 = Except.ok (Value.vnull, 0) ∧ Value.vnull ≠ Value.vblob [] ∧
    readValue [] 0 13 = Except.ok (Value.vnull, 0) ∧ Value.vnull ≠ Value.vtext [] :=
  ⟨rfl, by decide, rfl, by decide⟩

/-- C3 amended: even serial types from 14 up decode to a blob of
(serialType - 12) / 2 bytes and odd types from 15 up to a text of
(serialType - 13) / 2 bytes (exactly that many bytes whenever the buffer
holds them; Buffer.subarray clamps otherwise), while serial types 12 and
13 decode to null, not to zero-length values. -/
theorem c3_blob_text_lengths (buffer : List Nat) (cursor st : Nat) :
    (readValue buffer cursor 12 = Except.ok (Value.vnull, cursor)) ∧
    (readValue buffer cursor 13 = Except.ok (Value.vnull, cursor)) ∧
    (14 ≤ st → st % 2 = 0 →
      readValue buffer cursor st =
        Except.ok (Value.vblob ((buffer.drop cursor).take ((st - 12) / 2)),
          cursor + (st - 12) / 2)) ∧
    (15 ≤ st → st % 2 = 1 →
      readValue buffer cursor st =
        Except.ok (Value.vtext ((buffer.drop cursor).take ((st - 13) / 2)),
          cursor + (st - 13) / 2)) ∧
    (cursor + (st - 12) / 2 ≤ buffer.length →
      ((buffer.drop cursor).take ((st - 12) / 2)).length = (st - 12) / 2) ∧
    (cursor + (st - 13) / 2 ≤ buffer.length →
      ((buffer.drop cursor).take ((st - 13) / 2)).length = (st - 13) / 2) := by
  refine ⟨rfl, rfl, ?_, ?_, ?_, ?_⟩
  · intro h14 he
    rw [readValue, if_neg (by omega), if_pos (by omega)]
    simp only [if_pos he]
  · intro h15 ho
    rw [readValue, if_neg (by omega), if_pos (by omega)]
    simp only [if_neg (show ¬ st % 2 = 0 by omega)]
  · intro hle
    simp only [List.length_take, List.length_drop]
    omega
  · intro hle
    simp only [List.length_take, List.length_drop]
    omega

/-- Witness for C3 amended: serial type 14 slices a 1-byte blob and type
15 a 1-byte text. -/
theorem c3_blob_text_lengths_witness :
    readValue [9, 9] 0 14 = Except.ok (Value.vblob [9], 1) ∧
    readValue [7, 7, 7] 0 15 = Except.ok (Value.vtext [7], 1) :=
  ⟨(c3_blob_text_lengths [9, 9] 0 14).2.2.1 (by omega) (by omega),
   (c3_blob_text_lengths [7, 7, 7] 0 15).2.2.2.1 (by omega) (by omega)⟩

/-- C4 counterexample: the claim says serial type 2 is a signed read, so
bytes 0xFF 0xFF would decode to -1; the code uses readUInt16BE and
decodes them to 65535. -/
theorem c4_counterexample :
    readValue [255, 255] 0 2 = Except.ok (Value.vint 65535, 2) ∧ (65535 : Int) ≠ -1 :=
  ⟨rfl, by decide⟩

/-- C4 amended: serial type 1 is a signed one-byte read (values 128-255
decode to negatives), while serial type 2 is an unsigned big-endian
two-byte read whose result is never negative. -/
theorem c4_int_reads (buffer : List Nat) (cursor : Nat) (hb : cursor + 2 ≤ buffer.length) :
    readValue buffer cursor 1 =
      Except.ok (Value.vint (if buffer.getD cursor 0 < 128 then (buffer.getD cursor 0 : Int)
        else (buffer.getD cursor 0 : Int) - 256), cursor + 1) ∧
    readValue buffer cursor 2 =
      Except.ok
        (Value.vint ((buffer.getD cursor 0 * 256 + buffer.getD (cursor + 1) 0 : Nat) : Int),
          cursor + 2) ∧
    0 ≤ ((buffer.getD cursor 0 * 256 + buffer.getD (cursor + 1) 0 : Nat) : Int) := by
  refine ⟨?_, ?_, Int.natCast_nonneg _⟩
  · rw [readValue, if_neg (by omega), if_neg (by omega), if_pos rfl,
      readInt8, if_pos (by omega), exmap_ok]
  · rw [readValue, if_neg (by omega), if_neg (by omega), if_neg (by omega), if_pos rfl,
      readUInt16BE, readUIntBE_ok_of_le (by omega), exmap_ok]
    have hbe : beVal buffer cursor 2 =
        buffer.getD cursor 0 * 256 + buffer.getD (cursor + 1) 0 := by
      simp [beVal]
    rw [hbe]

/-- Witness for C4 amended: 0xFF decodes to -1 under serial type 1 and
0xFF 0xFF to 65535 under serial type 2. -/
theorem c4_int_reads_witness :
    readValue [255, 255] 0 1 = Except.ok (Value.vint (-1), 1) ∧
    readValue [255, 255] 0 2 = Except.ok (Value.vint 65535, 2) := by
  have h := c4_int_reads [255, 255] 0 (by decide)
  refine ⟨?_, ?_⟩
  · have h1 := h.1
    simpa using h1
  · have h2 := h.2.1
    simpa using h2

/-- C5 counterexample: the claim says the index page types 0x0a and 0x02
fail fatally; the code returns header sizes 8 and 12 for them. -/
theorem c5_counterexample :
    getPageHeaderSize 10 = Except.ok 8 ∧ getPageHeaderSize 2 = Except.ok 12 :=
  ⟨rfl, rfl⟩

/-- C5 amended: the page-header-size function returns 8 exactly for page
types 13 (0x0d) and 10 (0x0a), 12 exactly for 2 (0x02) and 5 (0x05), and
fails exactly on every other page-type byte. -/
theorem c5_header_size (t : Int) :
    (getPageHeaderSize t = Except.ok 8 ↔ t = 13 ∨ t = 10) ∧
    (getPageHeaderSize t = Except.ok 12 ↔ t = 2 ∨ t = 5) ∧
    ((getPageHeaderSize t).toOption = none ↔ ¬(t = 13 ∨ t = 10 ∨ t = 2 ∨ t = 5)) := by
  unfold getPageHeaderSize
  by_cases h1 : t = 13 ∨ t = 10
  · rw [if_pos h1]
    refine ⟨by simp [h1], ?_, ?_⟩
    · constructor
      · intro hc; simp at hc
      · intro hc
        rcases h1 with rfl | rfl <;> rcases hc with hc | hc <;> simp at hc
    · simp [Except.toOption]
      tauto
  · rw [if_neg h1]
    by_cases h2 : t = 2 ∨ t = 5
    · rw [if_pos h2]
      refine ⟨?_, by simp [h2], ?_⟩
      · constructor
        · intro hc; simp at hc
        · intro hc; exact absurd hc h1
      · simp [Except.toOption]
        tauto
    · rw [if_neg h2]
      refine ⟨?_, ?_, ?_⟩
      · constructor
        · intro hc; simp at hc
        · intro hc; exact absurd hc h1
      · constructor
        · intro hc; simp at hc
        · intro hc; exact absurd hc h2
      · simp [Except.toOption]
        tauto

/-- Witness for C5 amended: type 13 maps to 8 and type 7 fails. -/
theorem c5_header_size_witness :
    getPageHeaderSize 13 = Except.ok 8 ∧ (getPageHeaderSize 7).toOption = none :=
  ⟨(c5_header_size 13).1.mpr (Or.inl rfl), (c5_header_size 7).2.2.mpr (by decide)⟩

/-- C6 counterexample: the claim says a fatal error makes the process
exit non-zero; scanning a page of unknown type 7 throws, main logs the
error to the error stream, yet the modelled exit status is 0. -/
theorem c6_counterexample :
    readTableRows badPageFile 32 [] none 1 1 = Except.error "Unknown page type: 7" ∧
    (mainModel (readTableRows badPageFile 32 [] none 1 1)).2.2 = 0 ∧
    (mainModel (readTableRows badPageFile 32 [] none 1 1)).2.1 ≠ [] := by
  refine ⟨rfl, rfl, by decide⟩

/-- C6 amended: every error thrown by a command body reaches the single
try/catch boundary in main uncaught, is written to the error stream with
the Fatal error prefix, and the process then exits with status 0 (main
swallows the error), not with a non-zero status. -/
theorem c6_error_swallowed {α : Type} (body : Except String α) (e : String)
    (h : body = .error e) :
    mainModel body = (none, [ascii "Fatal error: " ++ ascii e], 0) := by
  subst h
  rfl

/-- Witness for C6 amended: the unknown-page-type error of badPageFile is
logged and the exit status is 0. -/
theorem c6_error_swallowed_witness :
    mainModel (readTableRows badPageFile 32 [] none 1 1) =
      (none, [ascii "Fatal error: " ++ ascii "Unknown page type: 7"], 0) :=
  c6_error_swallowed (readTableRows badPageFile 32 [] none 1 1) "Unknown page type: 7" rfl

/-- C7 counterexample: the claim says every internal table name is
excluded from .tables output; the code only filters the exact name
sqlite_sequence, so the internal name sqlite_stat1 is emitted. -/
theorem c7_counterexample :
    filterAndFormatListOfTables stat1Catalog = ascii "apples sqlite_stat1" ∧
    filterAndFormatListOfTables stat1Catalog ≠ ascii "apples" :=
  ⟨rfl, by decide⟩

/-- C7 amended: on a catalog whose tableName values are all text, .tables
emits exactly the names different from sqlite_sequence (every other name
appears, internal or not), sorted bytewise ascending and joined by single
spaces. -/
theorem c7_tables_output (tables : List Row)
    (h : ∀ v ∈ tables.map (fun t => mapGet t "tableName"), ∃ s, v = Value.vtext s) :
    filterAndFormatListOfTables tables = joinWith (ascii " ") (sortedKept tables) ∧
    (sortedKept tables).Perm (keptNames tables) ∧
    (sortedKept tables).Pairwise (fun a b => bytesLe a b = true) := by
  refine ⟨?_, sortListBy_perm bytesLe (keptNames tables),
    sortListBy_pairwise bytesLe bytesLe_total bytesLe_trans (keptNames tables)⟩
  rw [filterAndFormatListOfTables, sortedKept, keptNames]
  congr 1
  have hfil : ∀ v ∈ (tables.map fun t => mapGet t "tableName").filter
      (fun tableName => !(jsStrictEq tableName (Value.vtext (ascii "sqlite_sequence")))),
      ∃ s, v = Value.vtext s :=
    fun v hv => h v (List.mem_of_mem_filter hv)
  rw [sortListBy, sortListBy]
  rw [sort_map_text _ [] hfil (by intro v hv; simp at hv)]
  rw [filter_map_text _ h]
  rfl

/-- Witness for C7 amended, on a three-entry catalog. -/
theorem c7_tables_output_witness :
    filterAndFormatListOfTables demoCatalog = joinWith (ascii " ") (sortedKept demoCatalog) ∧
    (sortedKept demoCatalog).Perm (keptNames demoCatalog) ∧
    (sortedKept demoCatalog).Pairwise (fun a b => bytesLe a b = true) :=
  c7_tables_output demoCatalog (by
    intro v hv
    rw [show demoCatalog.map (fun t => mapGet t "tableName") =
        [Value.vtext (ascii "banana"), Value.vtext (ascii "apple"),
         Value.vtext (ascii "sqlite_sequence")] from rfl] at hv
    fin_cases hv <;> exact ⟨_, rfl⟩)

/-- C8: every row produced by a leaf-page parse with a declared (truthy)
integer-primary-key alias column carries, at that column, the rowid of
its own cell, and never the null literal stored in the record payload. -/
theorem c8_identity_override (numberOfCells : Nat) (buffer : List Nat)
    (columns : List String) (ic : String) (rows : List Row) (hic : ic ≠ "")
    (h : parseTableLeafPage 13 numberOfCells buffer columns (some ic) = .ok rows) :
    ∀ i (hi : i < rows.length), ∃ r : Nat,
      leafCellRowId buffer (8 + 2 * i) = .ok (some r) ∧
      mapGet (rows.get ⟨i, hi⟩) ic = Value.vint r ∧
      mapGet (rows.get ⟨i, hi⟩) ic ≠ Value.vnull := by
  have hleaf : leafCells buffer columns (some ic) 13 numberOfCells 8 = .ok rows := by
    rw [parseTableLeafPage, show getPageHeaderSize 13 = Except.ok 8 from rfl, exbind_ok] at h
    exact h
  intro i hi
  obtain ⟨r, hr1, hr2⟩ :=
    leafCells_identity buffer columns ic hic numberOfCells 8 rows hleaf i hi
  refine ⟨r, hr1, hr2, ?_⟩
  rw [hr2]
  simp

/-- Witness for C8 on the concrete leaf page leafBuf. -/
theorem c8_identity_override_witness :
    ∃ r : Nat, leafCellRowId leafBuf (8 + 2 * 0) = .ok (some r) ∧
      mapGet [("a", Value.vint 1)] "a" = Value.vint r ∧
      mapGet [("a", Value.vint 1)] "a" ≠ Value.vnull :=
  c8_identity_override 1 leafBuf ["a"] "a" [[("a", Value.vint 1)]] (by decide) rfl 0
    (by decide)

/-- C9: scanning an interior table page whose cells decode to the children
[c1, c2, c3] yields scan(c1) ++ scan(c2) ++ scan(c3), the concatenation of
the child scans in left-to-right cell order. -/
theorem c9_concat_three (file : List Nat) (pageSize : Nat) (columns : List String)
    (identityColumn : Option String) (fuel page n c1 c2 c3 : Nat) (r1 r2 r3 : List Row)
    (hps : 12 ≤ pageSize)
    (hpt : readInt8 (readPage file ((page - 1) * pageSize) pageSize) 0 = .ok 5)
    (hn : readUInt16BE (readPage file ((page - 1) * pageSize) pageSize) 3 = .ok n)
    (hch : parseTableInteriorPage 5 n (readPage file ((page - 1) * pageSize) pageSize) =
      .ok [c1, c2, c3])
    (h1 : readTableRows file pageSize columns identityColumn fuel c1 = .ok r1)
    (h2 : readTableRows file pageSize columns identityColumn fuel c2 = .ok r2)
    (h3 : readTableRows file pageSize columns identityColumn fuel c3 = .ok r3) :
    readTableRows file pageSize columns identityColumn (fuel + 1) page =
      .ok (r1 ++ r2 ++ r3) := by
  rw [readTableRows_interior file pageSize columns identityColumn fuel page n [c1, c2, c3]
    hps hpt hn hch]
  rw [scanChildren, h1, exbind_ok, scanChildren, h2, exbind_ok, scanChildren, h3, exbind_ok,
    scanChildren, exbind_ok]
  simp [List.append_assoc]

/-- Witness for C9 on the concrete four-page database file9. -/
theorem c9_concat_three_witness :
    readTableRows file9 32 ["a"] (some "a") (1 + 1) 1 =
      Except.ok ([[("a", Value.vint 1)]] ++ [[("a", Value.vint 2)]] ++ [[("a", Value.vint 3)]]) :=
  c9_concat_three file9 32 ["a"] (some "a") 1 1 3 2 3 4
    [[("a", Value.vint 1)]] [[("a", Value.vint 2)]] [[("a", Value.vint 3)]]
    (by omega) rfl rfl rfl rfl rfl rfl

/-- C10: the filter returns the rows unchanged on an empty where clause;
with a one-element (column, literal) clause it keeps exactly the rows
whose value at that column is strictly equal to the literal, in their
original order (a sublist), and strict equality never equates values of
different types or unequal values (no coercion). -/
theorem c10_filter_semantics (rows : List Row) (c : String) (lit : Value) :
    applyFilter rows [] = rows ∧
    (∀ r, r ∈ applyFilter rows [(c, lit)] ↔
      r ∈ rows ∧ jsStrictEq (mapGet r c) lit = true) ∧
    (applyFilter rows [(c, lit)]).Sublist rows ∧
    (∀ v w : Value, jsStrictEq v w = true → v = w) := by
  refine ⟨rfl, ?_, ?_, ?_⟩
  · intro r
    simp [applyFilter, List.mem_filter]
  · exact List.filter_sublist _
  · intro v w hvw
    cases v <;> cases w <;> simp_all [jsStrictEq]

/-- Witness for C10 on a concrete row list and literal. -/
theorem c10_filter_semantics_witness :
    applyFilter [[("a", Value.vint 3)]] [] = [[("a", Value.vint 3)]] ∧
    Value.vint 4 = Value.vint 4 :=
  ⟨(c10_filter_semantics [[("a", Value.vint 3)]] "a" (Value.vint 3)).1,
   (c10_filter_semantics [[("a", Value.vint 3)]] "a" (Value.vint 3)).2.2.2
     (Value.vint 4) (Value.vint 4) (by decide)⟩
